import Mathlib

/-!
# Wi-Fi login sequence validator (DFA)

Shallow embedding of `src/src/dfa.h` and `src/src/dfa.cpp`.

* `State` is the enumeration of `dfa.h` (enumerators `Q0`, `Q1`, `Q2`, `Q3`, `QE`; the
  specification calls them Start, UsernameEntered, PasswordEntered, Success, Error).
* `transition`, `isFinal`, `isError`, `resetDFA` are the functions of `dfa.cpp`, arm by arm.
* The input symbol (`char` in the source) is a `Char`; the source only ever compares it with
  the literals `'u'`, `'p'`, `'s'`.
* `stateName` is the function of `dfa.cpp`; its `switch`, with the `default` arm, is
  `stateNameOfValue` over the integer value of the enumerator (`State.value`).
* `feed` is the caller's loop described in the specification: symbols are fed one at a time,
  each step replacing the current state by `transition current symbol`.
-/

namespace WifiDfa

/-- The enumeration `State` of `dfa.h`: `Q0` start, `Q1` username entered, `Q2` password
entered, `Q3` login success (accepting), `QE` error (dead). -/
inductive State where
  | Q0
  | Q1
  | Q2
  | Q3
  | QE
  deriving DecidableEq, Repr

/-- The function `transition` of `dfa.cpp`. The source's last arm is `case QE: default:`,
which for the five enumerators is the arm of `QE`. -/
def transition (current : State) (input : Char) : State :=
  match current with
  | State.Q0 => if input = 'u' then State.Q1 else State.QE
  | State.Q1 => if input = 'p' then State.Q2 else State.QE
  | State.Q2 => if input = 's' then State.Q3 else State.QE
  | State.Q3 => State.Q3
  | State.QE => State.QE

/-- The function `isFinal` of `dfa.cpp`: `state == Q3`. -/
def isFinal (state : State) : Bool :=
  state == State.Q3

/-- The function `isError` of `dfa.cpp`: `state == QE`. -/
def isError (state : State) : Bool :=
  state == State.QE

/-- The function `resetDFA` of `dfa.cpp`: `return Q0`. -/
def resetDFA : State :=
  State.Q0

/-- The integer value of each enumerator of `enum State { Q0, Q1, Q2, Q3, QE }`: the
enumerators are numbered from zero in declaration order. -/
def State.value : State → Int
  | State.Q0 => 0
  | State.Q1 => 1
  | State.Q2 => 2
  | State.Q3 => 3
  | State.QE => 4

/-- The `switch` of `stateName` in `dfa.cpp`, over the integer value it dispatches on: one
arm per enumerator and the `default` arm returning `"Unknown"`. -/
def stateNameOfValue (v : Int) : String :=
  if v = 0 then "Q0 (Idle)"
  else if v = 1 then "Q1 (Username Entered)"
  else if v = 2 then "Q2 (Password Entered)"
  else if v = 3 then "Q3 (Login Successful)"
  else if v = 4 then "QE (Error)"
  else "Unknown"

/-- The function `stateName` of `dfa.cpp`, on a value of the enumeration. -/
def stateName (state : State) : String :=
  stateNameOfValue state.value

/-- The caller's loop: starting in state `s`, the symbols of `w` are consumed from left to
right, one call of `transition` per symbol. -/
def feed (s : State) : List Char → State
  | [] => s
  | c :: w => feed (transition s c) w

/-- A symbol is invalid when it is none of the three characters of the login alphabet. -/
def InvalidSymbol (c : Char) : Prop :=
  c ≠ 'u' ∧ c ≠ 'p' ∧ c ≠ 's'

instance : DecidablePred InvalidSymbol := fun c => by
  unfold InvalidSymbol
  infer_instance

/-! ## Helper lemmas -/

theorem feed_nil (s : State) : feed s [] = s := rfl

theorem feed_cons (s : State) (c : Char) (w : List Char) :
    feed s (c :: w) = feed (transition s c) w := rfl

theorem feed_append (s : State) (v w : List Char) :
    feed s (v ++ w) = feed (feed s v) w := by
  induction v generalizing s with
  | nil => rfl
  | cons c v ih => simp [feed_cons, ih]

theorem feed_QE (w : List Char) : feed State.QE w = State.QE := by
  induction w with
  | nil => rfl
  | cons c w ih => simpa [feed_cons, transition] using ih

theorem feed_Q3 (w : List Char) : feed State.Q3 w = State.Q3 := by
  induction w with
  | nil => rfl
  | cons c w ih => simpa [feed_cons, transition] using ih

theorem transition_ne_Q0 (s : State) (c : Char) : transition s c ≠ State.Q0 := by
  cases s <;> simp only [transition] <;> (try split) <;> decide

theorem feed_eq_Q0 (s : State) (w : List Char) (h : feed s w = State.Q0) : w = [] := by
  induction w generalizing s with
  | nil => rfl
  | cons c w ih =>
    rw [feed_cons] at h
    have hw := ih (transition s c) h
    subst hw
    exact absurd h (transition_ne_Q0 s c)

/-! ## Claims -/

/-- C1: for every input character `c`, `transition` agrees with the complete table of the
specification: from Start (`Q0`) the next state is UsernameEntered (`Q1`) if `c = 'u'` and
Error (`QE`) otherwise; from `Q1` it is `Q2` if `c = 'p'` and `QE` otherwise; from `Q2` it is
Success (`Q3`) if `c = 's'` and `QE` otherwise; from `Q3` it is `Q3`; from `QE` it is `QE`. -/
theorem C1_transition_table (c : Char) :
    transition State.Q0 c = (if c = 'u' then State.Q1 else State.QE) ∧
    transition State.Q1 c = (if c = 'p' then State.Q2 else State.QE) ∧
    transition State.Q2 c = (if c = 's' then State.Q3 else State.QE) ∧
    transition State.Q3 c = State.Q3 ∧
    transition State.QE c = State.QE :=
  ⟨rfl, rfl, rfl, rfl, rfl⟩

/-- C2: for every finite input sequence `w` fed one symbol at a time from `resetDFA()`, the
resulting state is Success (`Q3`, the state on which `isFinal` holds) if and only if the first
three symbols of `w` are exactly `'u'`, `'p'`, `'s'` in that order; in particular no sequence
shorter than three symbols reaches Success. -/
theorem C2_success_iff_prefix_ups (w : List Char) :
    (feed resetDFA w = State.Q3 ↔ w.take 3 = ['u', 'p', 's']) ∧
    (isFinal (feed resetDFA w) = true ↔ w.take 3 = ['u', 'p', 's']) ∧
    (feed resetDFA w = State.Q3 → 3 ≤ w.length) := by
  have key : feed resetDFA w = State.Q3 ↔ w.take 3 = ['u', 'p', 's'] := by
    match w with
    | [] => simp [feed, resetDFA]
    | [a] =>
      by_cases ha : a = 'u' <;> simp [feed, resetDFA, transition, ha]
    | [a, b] =>
      by_cases ha : a = 'u' <;> by_cases hb : b = 'p' <;>
        simp [feed, resetDFA, transition, ha, hb]
    | a :: b :: c :: rest =>
      by_cases ha : a = 'u' <;> by_cases hb : b = 'p' <;> by_cases hc : c = 's' <;>
        simp [feed_cons, resetDFA, transition, ha, hb, hc, feed_Q3, feed_QE]
  refine ⟨key, ?_, ?_⟩
  · rw [← key]
    simp [isFinal]
  · intro h
    have h3 := congrArg List.length (key.mp h)
    simp only [List.length_take, List.length_cons, List.length_nil] at h3
    omega

/-- Witness for C2: the sequence `u, p, s, x, u` begins with the triple, so it ends in
Success, and it has at least three symbols. -/
theorem C2_success_iff_prefix_ups_witness :
    feed resetDFA ['u', 'p', 's', 'x', 'u'] = State.Q3 ∧
    3 ≤ ['u', 'p', 's', 'x', 'u'].length :=
  ⟨by decide, (C2_success_iff_prefix_ups ['u', 'p', 's', 'x', 'u']).2.2 (by decide)⟩

/-- C3: Success (`Q3`) and Error (`QE`) are absorbing under a single step: for every input
character `s`, `transition Q3 s = Q3` and `transition QE s = QE`. -/
theorem C3_absorbing_step (s : Char) :
    transition State.Q3 s = State.Q3 ∧ transition State.QE s = State.QE :=
  ⟨rfl, rfl⟩

/-- C4 (as stated, refuted): the sequence `u, p, s, x` contains the invalid symbol `'x'`,
yet the state after the whole sequence is Success (`Q3`), not Error (`QE`): the first three
symbols reach `Q3`, whose arm returns `Q3` on every input. -/
theorem C4_counterexample :
    (∃ c ∈ ['u', 'p', 's', 'x'], InvalidSymbol c) ∧
    feed resetDFA ['u', 'p', 's', 'x'] = State.Q3 ∧
    feed resetDFA ['u', 'p', 's', 'x'] ≠ State.QE := by
  refine ⟨⟨'x', by decide, by decide⟩, by decide, by decide⟩

/-- C4 (amended): for every finite input sequence fed one symbol at a time from Start, if an
invalid symbol `c` (a character other than `'u'`, `'p'`, `'s'`) is consumed at a point where
the symbols before it have not led to Success, then the state after the whole sequence,
whatever follows `c`, is Error. -/
theorem C4_invalid_before_success (pre post : List Char) (c : Char)
    (hc : InvalidSymbol c) (hpre : feed resetDFA pre ≠ State.Q3) :
    feed resetDFA (pre ++ c :: post) = State.QE := by
  obtain ⟨hu, hp, hs⟩ := hc
  have hstep : transition (feed resetDFA pre) c = State.QE := by
    cases h : feed resetDFA pre with
    | Q0 => simp [transition, hu]
    | Q1 => simp [transition, hp]
    | Q2 => simp [transition, hs]
    | Q3 => exact absurd h hpre
    | QE => rfl
  rw [feed_append, feed_cons, hstep, feed_QE]

/-- Witness for C4 (amended): after `u` the automaton is not in Success, so consuming `'x'`
there and then `p, s` ends in Error. -/
theorem C4_invalid_before_success_witness :
    InvalidSymbol 'x' ∧ feed resetDFA ['u'] ≠ State.Q3 ∧
    feed resetDFA (['u'] ++ 'x' :: ['p', 's']) = State.QE :=
  ⟨by decide, by decide,
    C4_invalid_before_success ['u'] ['p', 's'] 'x' (by decide) (by decide)⟩

/-- C5: for every state `s`, `isFinal s` is true if and only if `s` is Success (`Q3`), and
`isError s` is true if and only if `s` is Error (`QE`). -/
theorem C5_classification (s : State) :
    (isFinal s = true ↔ s = State.Q3) ∧ (isError s = true ↔ s = State.QE) := by
  cases s <;> decide

/-- C6: for every state `s`, `isFinal s` and `isError s` are never both true, and both are
false exactly when `s` is one of Start (`Q0`), UsernameEntered (`Q1`), PasswordEntered
(`Q2`). -/
theorem C6_partition (s : State) :
    ¬ (isFinal s = true ∧ isError s = true) ∧
    ((isFinal s = false ∧ isError s = false) ↔
      (s = State.Q0 ∨ s = State.Q1 ∨ s = State.Q2)) := by
  cases s <;> decide

/-- C7: happy path. Feeding `'u'`, `'p'`, `'s'` from Start gives Success, on which `isFinal`
is true and `isError` is false. -/
theorem C7_happy_path :
    transition (transition (transition State.Q0 'u') 'p') 's' = State.Q3 ∧
    isFinal (transition (transition (transition State.Q0 'u') 'p') 's') = true ∧
    isError (transition (transition (transition State.Q0 'u') 'p') 's') = false := by
  decide

/-- C8: early divergence. `transition Q0 'p'` is Error, and for every continuation `w` the
state after each of its symbols (that is, after each prefix `w.take k`) is Error with
`isError` true; `u, s` is one such continuation. -/
theorem C8_early_divergence (w : List Char) (k : Nat) :
    transition State.Q0 'p' = State.QE ∧
    feed (transition State.Q0 'p') (w.take k) = State.QE ∧
    isError (feed (transition State.Q0 'p') (w.take k)) = true ∧
    feed (transition State.Q0 'p') ['u', 's'] = State.QE := by
  have h0 : transition State.Q0 'p' = State.QE := by decide
  rw [h0, feed_QE, feed_QE]
  exact ⟨rfl, rfl, rfl, rfl⟩

/-- C9: out-of-order input is rejected, not ignored. For every character `c` other than
`'p'`, `transition (transition Q0 'u') c` is Error, hence not UsernameEntered (`Q1`). -/
theorem C9_out_of_order (c : Char) (hc : c ≠ 'p') :
    transition State.Q0 'u' = State.Q1 ∧
    transition (transition State.Q0 'u') c = State.QE ∧
    transition (transition State.Q0 'u') c ≠ State.Q1 := by
  have h0 : transition State.Q0 'u' = State.Q1 := by decide
  have h1 : transition State.Q1 c = State.QE := by simp [transition, hc]
  rw [h0, h1]
  exact ⟨rfl, rfl, by decide⟩

/-- Witness for C9: submit before password, `c = 's'`. -/
theorem C9_out_of_order_witness :
    's' ≠ 'p' ∧ transition (transition State.Q0 'u') 's' = State.QE :=
  ⟨by decide, (C9_out_of_order 's' (by decide)).2.1⟩

/-- C10: Error is the unique dead state. For every state `s`, no finite input sequence leads
from `s` to Success if and only if `s` is Error; from each of `Q0`, `Q1`, `Q2`, `Q3` an
explicit sequence reaches Success. -/
theorem C10_unique_dead_state (s : State) :
    ((¬ ∃ w : List Char, feed s w = State.Q3) ↔ s = State.QE) ∧
    feed State.Q0 ['u', 'p', 's'] = State.Q3 ∧
    feed State.Q1 ['p', 's'] = State.Q3 ∧
    feed State.Q2 ['s'] = State.Q3 ∧
    feed State.Q3 [] = State.Q3 := by
  refine ⟨?_, by decide, by decide, by decide, by decide⟩
  constructor
  · intro h
    cases s with
    | Q0 => exact absurd ⟨['u', 'p', 's'], by decide⟩ h
    | Q1 => exact absurd ⟨['p', 's'], by decide⟩ h
    | Q2 => exact absurd ⟨['s'], by decide⟩ h
    | Q3 => exact absurd ⟨[], by decide⟩ h
    | QE => rfl
  · rintro rfl ⟨w, hw⟩
    rw [feed_QE] at hw
    exact absurd hw (by decide)

/-- C11: `resetDFA()` always returns Start: two calls agree and equal `Q0`, and on the result
`isFinal` is false and `isError` is false. -/
theorem C11_reset :
    resetDFA = resetDFA ∧ resetDFA = State.Q0 ∧
    isFinal resetDFA = false ∧ isError resetDFA = false :=
  ⟨rfl, rfl, rfl, rfl⟩

/-- C12: `stateName` returns a non-empty label for each of the five states, and the labels
are pairwise distinct, that is, `stateName` is injective. -/
theorem C12_stateName_nonempty_injective :
    (∀ s : State, stateName s ≠ "" ∧ 0 < (stateName s).length) ∧
    Function.Injective stateName := by
  constructor
  · intro s
    cases s <;> decide
  · intro s t h
    cases s <;> cases t <;> first | rfl | exact absurd h (by decide)

/-- C13: there is no special case for `'x'`. For every state `s` and every two characters
`c1`, `c2` that are both outside `'u'`, `'p'`, `'s'`, `transition s c1 = transition s c2`. -/
theorem C13_invalid_symbols_alike (s : State) (c1 c2 : Char)
    (h1 : InvalidSymbol c1) (h2 : InvalidSymbol c2) :
    transition s c1 = transition s c2 := by
  obtain ⟨hu1, hp1, hs1⟩ := h1
  obtain ⟨hu2, hp2, hs2⟩ := h2
  cases s <;> simp [transition, hu1, hp1, hs1, hu2, hp2, hs2]

/-- Witness for C13: `'x'` and `'z'` in state `Q1`. -/
theorem C13_invalid_symbols_alike_witness :
    InvalidSymbol 'x' ∧ InvalidSymbol 'z' ∧
    transition State.Q1 'x' = transition State.Q1 'z' :=
  ⟨by decide, by decide,
    C13_invalid_symbols_alike State.Q1 'x' 'z' (by decide) (by decide)⟩

/-- C14: a verdict, once reached, is permanent over whole runs. For all input sequences `w1`
and `w2` fed from Start: if the state after `w1` is Error then the state after `w1` followed
by `w2` is Error, and if the state after `w1` is Success then the state after `w1` followed by
`w2` is Success; accordingly `isError` and `isFinal`, once true, stay true. -/
theorem C14_verdict_permanent (w1 w2 : List Char) :
    (feed resetDFA w1 = State.QE → feed resetDFA (w1 ++ w2) = State.QE) ∧
    (feed resetDFA w1 = State.Q3 → feed resetDFA (w1 ++ w2) = State.Q3) ∧
    (isError (feed resetDFA w1) = true → isError (feed resetDFA (w1 ++ w2)) = true) ∧
    (isFinal (feed resetDFA w1) = true → isFinal (feed resetDFA (w1 ++ w2)) = true) := by
  have hE : feed resetDFA w1 = State.QE → feed resetDFA (w1 ++ w2) = State.QE := by
    intro h
    rw [feed_append, h, feed_QE]
  have hS : feed resetDFA w1 = State.Q3 → feed resetDFA (w1 ++ w2) = State.Q3 := by
    intro h
    rw [feed_append, h, feed_Q3]
  refine ⟨hE, hS, ?_, ?_⟩
  · intro h
    have h1 : feed resetDFA w1 = State.QE := by
      revert h
      cases feed resetDFA w1 <;> decide
    rw [hE h1]
    rfl
  · intro h
    have h1 : feed resetDFA w1 = State.Q3 := by
      revert h
      cases feed resetDFA w1 <;> decide
    rw [hS h1]
    rfl

/-- Witness for C14: `u, x` ends in Error and stays there when `u, p, s` follows. -/
theorem C14_verdict_permanent_witness :
    feed resetDFA ['u', 'x'] = State.QE ∧
    feed resetDFA (['u', 'x'] ++ ['u', 'p', 's']) = State.QE :=
  ⟨by decide, (C14_verdict_permanent ['u', 'x'] ['u', 'p', 's']).1 (by decide)⟩

/-- C15: the `default` arm of `stateName` is not taken for the defined enumeration. For each
of the five states `stateName` returns a label different from `"Unknown"`; the value of every
enumerator lies in `0..4`, and the `switch` yields `"Unknown"` exactly for integer values
outside that range. -/
theorem C15_stateName_not_unknown (s : State) (v : Int) :
    stateName s ≠ "Unknown" ∧
    (0 ≤ s.value ∧ s.value ≤ 4) ∧
    (stateNameOfValue v = "Unknown" ↔ (v < 0 ∨ 4 < v)) := by
  refine ⟨by cases s <;> decide, by cases s <;> decide, ?_⟩
  unfold stateNameOfValue
  split_ifs with h0 h1 h2 h3 h4
  · subst h0
    decide
  · subst h1
    decide
  · subst h2
    decide
  · subst h3
    decide
  · subst h4
    decide
  · constructor
    · intro _
      omega
    · intro _
      rfl

/-- C16: the in-progress states identify exactly the proper prefixes of the login sequence.
For every input sequence `w` fed from Start, the resulting state is Start (`Q0`) iff `w` is
empty, UsernameEntered (`Q1`) iff `w = ['u']`, PasswordEntered (`Q2`) iff `w = ['u', 'p']`;
consequently every sequence of three or more symbols ends in Success or Error. -/
theorem C16_in_progress_prefixes (w : List Char) :
    (feed resetDFA w = State.Q0 ↔ w = []) ∧
    (feed resetDFA w = State.Q1 ↔ w = ['u']) ∧
    (feed resetDFA w = State.Q2 ↔ w = ['u', 'p']) ∧
    (3 ≤ w.length → feed resetDFA w = State.Q3 ∨ feed resetDFA w = State.QE) := by
  match w with
  | [] => simp [feed, resetDFA]
  | [a] =>
    by_cases ha : a = 'u' <;> simp [feed, resetDFA, transition, ha]
  | [a, b] =>
    by_cases ha : a = 'u' <;> by_cases hb : b = 'p' <;>
      simp [feed, resetDFA, transition, ha, hb]
  | a :: b :: c :: rest =>
    by_cases ha : a = 'u' <;> by_cases hb : b = 'p' <;> by_cases hc : c = 's' <;>
      simp [feed_cons, resetDFA, transition, ha, hb, hc, feed_Q3, feed_QE]

/-- Witness for C16: the four-symbol sequence `u, p, x, s` ends in an absorbing state. -/
theorem C16_in_progress_prefixes_witness :
    3 ≤ ['u', 'p', 'x', 's'].length ∧
    (feed resetDFA ['u', 'p', 'x', 's'] = State.Q3 ∨
      feed resetDFA ['u', 'p', 'x', 's'] = State.QE) :=
  ⟨by decide, (C16_in_progress_prefixes ['u', 'p', 'x', 's']).2.2.2 (by decide)⟩

/-- C17: no transition ever returns to the initial state. For every state `s` and every
input character `c`, `transition s c` is not Start (`Q0`); so from any state, after at least
one symbol has been consumed, the automaton is not in Start, while `resetDFA` yields Start. -/
theorem C17_never_back_to_start (s : State) (c : Char) (w : List Char) :
    transition s c ≠ State.Q0 ∧
    (w ≠ [] → feed s w ≠ State.Q0) ∧
    resetDFA = State.Q0 := by
  refine ⟨transition_ne_Q0 s c, ?_, rfl⟩
  intro hw h
  exact hw (feed_eq_Q0 s w h)

/-- Witness for C17: from Start, the non-empty sequence `u, p, s` does not end in Start. -/
theorem C17_never_back_to_start_witness :
    ['u', 'p', 's'] ≠ [] ∧ feed State.Q0 ['u', 'p', 's'] ≠ State.Q0 :=
  ⟨by decide, (C17_never_back_to_start State.Q0 'u' ['u', 'p', 's']).2.1 (by decide)⟩

end WifiDfa
